import Mathlib

/-!
Shallow embedding of the Gravity Runner simulation loop from
src/src/components/GravityRunner.tsx.

Positions, velocities, timestamps and speeds are rationals (the source
uses JS numbers; all operations involved are field operations and
comparisons).  Calls to Math.random() are modelled as explicit rational
inputs (streams for the particle burst), Date.now() readings as explicit
rational inputs, and the canvas dimensions as parameters W and H that are
fixed for a round.  React state writes performed inside updateGame
(setGameOver, setHighScore, localStorage.setItem, toast.success) are
returned as explicit outputs of the tick.
-/

/-- Axis-aligned rectangle, the shape consumed by checkCollision. -/
structure Rect where
  x : ℚ
  y : ℚ
  width : ℚ
  height : ℚ
  deriving DecidableEq, Repr

/-- The Obstacle interface of the source. -/
structure Obstacle where
  id : ℚ
  x : ℚ
  y : ℚ
  width : ℚ
  height : ℚ
  isTop : Bool
  deriving DecidableEq, Repr

/-- The Particle interface of the source. -/
structure Particle where
  id : ℚ
  x : ℚ
  y : ℚ
  vx : ℚ
  vy : ℚ
  life : ℚ
  deriving DecidableEq, Repr

/-- The player record of gameState.current. -/
structure Player where
  x : ℚ
  y : ℚ
  width : ℚ
  height : ℚ
  velocityY : ℚ
  onGround : Bool
  gravityFlipped : Bool
  isFlipping : Bool
  flipStartTime : ℚ
  deriving DecidableEq, Repr

/-- gameState.current (keys.space is the single input flag). -/
structure GameState where
  player : Player
  obstacles : List Obstacle
  particles : List Particle
  gameSpeed : ℚ
  lastObstacleTime : ℚ
  score : ℚ
  spaceKey : Bool
  deriving DecidableEq, Repr

def Player.rect (p : Player) : Rect :=
  ⟨p.x, p.y, p.width, p.height⟩

def Obstacle.rect (o : Obstacle) : Rect :=
  ⟨o.x, o.y, o.width, o.height⟩

/-- const GRAVITY = 0.8 -/
def GRAVITY : ℚ := 4/5

/-- const JUMP_FORCE = -15 -/
def JUMP_FORCE : ℚ := -15

/-- getGroundY() = canvasSize.height - 50 -/
def groundY (H : ℚ) : ℚ := H - 50

/-- getCeilingY() = 50 -/
def ceilingY : ℚ := 50

/-- getPlayerSize() = Math.max(20, Math.min(40, canvasSize.width * 0.04)) -/
def getPlayerSize (W : ℚ) : ℚ := max 20 (min 40 (W * (1/25)))

/-- checkCollision: standard AABB test, all four comparisons strict. -/
def checkCollision (r1 r2 : Rect) : Bool :=
  decide (r1.x < r2.x + r2.width) && decide (r1.x + r1.width > r2.x) &&
  decide (r1.y < r2.y + r2.height) && decide (r1.y + r1.height > r2.y)

/-- createParticles(x, y): pushes 8 particles with random jitter of up to
10px around (x, y) and random velocities; particle i consumes the next
four Math.random() draws rng (4i), ..., rng (4i+3). -/
def createParticles (now cx cy : ℚ) (rng : ℕ → ℚ) : List Particle :=
  (List.range 8).map fun (i : ℕ) =>
    { id := now + i
      x := cx + rng (4 * i) * 20 - 10
      y := cy + rng (4 * i + 1) * 20 - 10
      vx := (rng (4 * i + 2) - 1/2) * 8
      vy := (rng (4 * i + 3) - 1/2) * 8
      life := 1 }

/-- The gravity-flip handling at the top of updateGame: if the space flag
is set and no flip animation is in progress, toggle gravityFlipped, start
the animation timer, set the jump impulse, and spawn the particle burst
at the player's center. -/
def flipStep (p : Player) (parts : List Particle) (space : Bool) (now : ℚ)
    (rng : ℕ → ℚ) : Player × List Particle :=
  if space && !p.isFlipping then
    let gf := !p.gravityFlipped
    ({ p with gravityFlipped := gf
              isFlipping := true
              flipStartTime := now
              velocityY := if gf then JUMP_FORCE else -JUMP_FORCE },
     parts ++ createParticles now (p.x + p.width / 2) (p.y + p.height / 2) rng)
  else
    (p, parts)

/-- The flip-animation expiry check of updateGame (runs after the flip
handling): clear isFlipping once more than 300ms have elapsed. -/
def clearFlip (now : ℚ) (p : Player) : Player :=
  if p.isFlipping && decide (300 < now - p.flipStartTime) then
    { p with isFlipping := false }
  else p

/-- Gravity integration and ground/ceiling clamping of updateGame:
velocityY += gravity; y += velocityY; then clamp against the boundary in
the direction of the current gravity, zeroing velocity on contact. -/
def physicsStep (H : ℚ) (p : Player) : Player :=
  let g := if p.gravityFlipped then -GRAVITY else GRAVITY
  let v := p.velocityY + g
  let y := p.y + v
  if p.gravityFlipped then
    if y ≤ ceilingY then
      { p with y := ceilingY, velocityY := 0, onGround := true }
    else
      { p with y := y, velocityY := v, onGround := false }
  else
    if groundY H ≤ y + p.height then
      { p with y := groundY H - p.height, velocityY := 0, onGround := true }
    else
      { p with y := y, velocityY := v, onGround := false }

/-- createObstacle: returns unchanged unless at least 2000ms have passed
since lastObstacleTime; otherwise pushes one obstacle at the right edge,
ceiling- or floor-mounted according to whether the Math.random() draw is
below 0.5, and records the spawn timestamp. -/
def createObstacle (W H : ℚ) (s : GameState) (now r : ℚ) : GameState :=
  if now - s.lastObstacleTime < 2000 then s
  else
    let isTop := decide (r < 1/2)
    let obstacleHeight := H * (1/5)
    let obstacleWidth := max 15 (W * (1/40))
    let ob : Obstacle :=
      { id := now
        x := W
        y := if isTop then ceilingY else groundY H - obstacleHeight
        width := obstacleWidth
        height := obstacleHeight
        isTop := isTop }
    { s with obstacles := s.obstacles ++ [ob], lastObstacleTime := now }

/-- The outputs of the obstacle filter pass of updateGame: the surviving
(moved) obstacles, the updated score, how many times setGameOver(true)
ran, the values passed to localStorage.setItem for the high score (in
order), and how many success toasts fired. -/
structure SweepResult where
  obstacles : List Obstacle
  score : ℚ
  gameOverCount : ℕ
  highWrites : List ℚ
  toasts : ℕ
  deriving DecidableEq, Repr

/-- The obstacle filter pass of updateGame, left to right.  Each obstacle
first moves left by gameSpeed; if its trailing edge is past the left
boundary it is dropped and scores 10; otherwise, if it overlaps the
player it is dropped, setGameOver(true) runs and, when the running score
exceeds the captured highScore, the high score is persisted and a toast
fires; otherwise it survives. -/
def sweep (p : Player) (speed high : ℚ) : ℚ → List Obstacle → SweepResult
  | score, [] => ⟨[], score, 0, [], 0⟩
  | score, o :: rest =>
    let om : Obstacle := { o with x := o.x - speed }
    if om.x + om.width < 0 then
      sweep p speed high (score + 10) rest
    else if checkCollision p.rect om.rect then
      let r := sweep p speed high score rest
      { r with gameOverCount := r.gameOverCount + 1
               highWrites := (if high < score then [score] else []) ++ r.highWrites
               toasts := (if high < score then 1 else 0) + r.toasts }
    else
      let r := sweep p speed high score rest
      { r with obstacles := om :: r.obstacles }

/-- The body of the particle filter of updateGame: integrate position,
damp velocity by 0.98, decay life by 0.02. -/
def updateParticle (q : Particle) : Particle :=
  { q with x := q.x + q.vx
           y := q.y + q.vy
           vx := q.vx * (49/50)
           vy := q.vy * (49/50)
           life := q.life - 1/50 }

/-- The particle filter of updateGame: update every particle, keep those
with life > 0. -/
def updateParticles (ps : List Particle) : List Particle :=
  (ps.map updateParticle).filter fun q => decide (0 < q.life)

/-- One tick of updateGame: the resulting gameState plus the external
effects it performed. -/
structure TickOut where
  state : GameState
  gameOverCount : ℕ
  highWrites : List ℚ
  toasts : ℕ
  deriving DecidableEq, Repr

/-- updateGame, in source order: flip handling, flip-animation expiry,
gravity integration and clamping, createObstacle, the obstacle sweep,
the particle update, and finally gameSpeed = min(8, 3 + score * 0.01).
`high` is the highScore value captured by the updateGame closure. -/
def updateGame (W H high : ℚ) (s : GameState) (now : ℚ) (rngP : ℕ → ℚ)
    (rngO : ℚ) : TickOut :=
  let fp := flipStep s.player s.particles s.spaceKey now rngP
  let p3 := physicsStep H (clearFlip now fp.1)
  let s1 : GameState := { s with player := p3, particles := fp.2 }
  let s2 := createObstacle W H s1 now rngO
  let r := sweep p3 s2.gameSpeed high s2.score s2.obstacles
  { state := { s2 with obstacles := r.obstacles
                       score := r.score
                       particles := updateParticles s2.particles
                       gameSpeed := min 8 (3 + r.score * (1/100)) }
    gameOverCount := r.gameOverCount
    highWrites := r.highWrites
    toasts := r.toasts }

/-- startGame: the fresh gameState.current installed at round start. -/
def startGame (W H : ℚ) : GameState :=
  { player :=
      { x := W * (3/20)
        y := H / 2
        width := getPlayerSize W
        height := getPlayerSize W
        velocityY := 0
        onGround := true
        gravityFlipped := false
        isFlipping := false
        flipStartTime := 0 }
    obstacles := []
    particles := []
    gameSpeed := max 2 (W * (1/200))
    lastObstacleTime := 0
    score := 0
    spaceKey := false }

/-- JS parseInt with no radix argument, on decimal inputs: skip leading
whitespace, read an optional sign, then the longest digit run; NaN
(modelled as none) when there is no digit.  (The hexadecimal 0x-prefix
special case of parseInt is not modelled; no input considered here uses
it, and the values the component itself persists are decimal.) -/
def parseIntJS (s : String) : Option ℤ :=
  let cs := s.toList.dropWhile Char.isWhitespace
  let signAndRest : ℤ × List Char :=
    match cs with
    | '-' :: rest => (-1, rest)
    | '+' :: rest => (1, rest)
    | _ => (1, cs)
  let digits := signAndRest.2.takeWhile Char.isDigit
  if digits.isEmpty then none
  else some (signAndRest.1 *
    ((digits.foldl (fun a c => a * 10 + (c.toNat - 48)) 0 : ℕ) : ℤ))

/-- The useState initializer of highScore:
parseInt(localStorage.getItem('gravityRunnerHighScore') || '0').
getItem returns null when absent; JS || replaces null and the empty
string (both falsy) by '0'.  none in the result is parseInt's NaN. -/
def initialHighScore (stored : Option String) : Option ℤ :=
  parseIntJS (match stored with
    | none => "0"
    | some str => if str = "" then "0" else str)

/-! ### Derived notions used by the claims -/

/-- An obstacle after this tick's leftward move. -/
def movedObs (speed : ℚ) (o : Obstacle) : Obstacle :=
  { o with x := o.x - speed }

/-- The offscreen-removal condition of the sweep, on the moved obstacle. -/
def offAfter (speed : ℚ) (o : Obstacle) : Prop :=
  (movedObs speed o).x + o.width < 0

/-- The collision condition of the sweep, on the moved obstacle. -/
def collAfter (p : Player) (speed : ℚ) (o : Obstacle) : Prop :=
  checkCollision p.rect (movedObs speed o).rect = true

instance (speed : ℚ) (o : Obstacle) : Decidable (offAfter speed o) := by
  unfold offAfter; infer_instance

instance (p : Player) (speed : ℚ) (o : Obstacle) :
    Decidable (collAfter p speed o) := by
  unfold collAfter; infer_instance

/-- The persisted high score after a sweep: the last value written by
localStorage.setItem, or the previous one if no write happened. -/
def persistedAfter (high : ℚ) (r : SweepResult) : ℚ :=
  r.highWrites.getLastD high

/-- Invariant for the player within a round: the player box lies between
the ceiling line and the floor line, fits in the corridor, and the
velocity points with the current gravity (downwards when gravity is
normal, upwards when flipped). -/
def InvP (H : ℚ) (p : Player) : Prop :=
  ceilingY ≤ p.y ∧ p.y + p.height ≤ groundY H ∧ p.height ≤ H - 100 ∧
  (p.gravityFlipped = true → p.velocityY ≤ 0) ∧
  (p.gravityFlipped = false → 0 ≤ p.velocityY)

instance (H : ℚ) (p : Player) : Decidable (InvP H p) := by
  unfold InvP; infer_instance

/-- Obstacle trailing edges are non-decreasing along the list.  This
holds of every reachable obstacle list: spawns append at the right edge
and all obstacles move left uniformly. -/
def TrailSorted (obs : List Obstacle) : Prop :=
  obs.Pairwise fun a b => a.x + a.width ≤ b.x + b.width

instance (obs : List Obstacle) : Decidable (TrailSorted obs) := by
  unfold TrailSorted; infer_instance

/-! ### C6: high score read at startup -/

/-- C6: the claim says the startup read of the persisted high score
yields 0 whenever the stored value is absent or unparsable.  The code
(parseInt(localStorage.getItem('gravityRunnerHighScore') || '0')) only
defaults the absent and empty cases; an unparsable stored string such as
"abc" makes parseInt return NaN, not 0, so the in-memory high score is
NaN — the defaulting the spec intends (and partially implements with
|| '0') is missing for this case.  This theorem evaluates the
initializer at the failing input "abc" (result none, i.e. NaN) and at
the two inputs the code does default correctly. -/
theorem initialHighScore_unparsable_is_nan :
    initialHighScore (some "abc") = none ∧
    initialHighScore none = some 0 ∧
    initialHighScore (some "") = some 0 := by
  refine ⟨by decide, by decide, by decide⟩

/-! ### C9: strictness of the collision predicate -/

/-- C9: checkCollision uses strict inequalities on all four edges: two
rectangles that merely touch along an edge are not reported as
colliding, and (for rectangles of positive extent) a collision is
reported exactly when the open interiors overlap on both axes. -/
theorem checkCollision_strict (r1 r2 : Rect) :
    ((r1.x + r1.width = r2.x ∨ r2.x + r2.width = r1.x ∨
      r1.y + r1.height = r2.y ∨ r2.y + r2.height = r1.y) →
      checkCollision r1 r2 = false) ∧
    (0 < r1.width → 0 < r1.height → 0 < r2.width → 0 < r2.height →
      (checkCollision r1 r2 = true ↔
        ((∃ q, r1.x < q ∧ q < r1.x + r1.width ∧ r2.x < q ∧ q < r2.x + r2.width) ∧
         (∃ q, r1.y < q ∧ q < r1.y + r1.height ∧ r2.y < q ∧ q < r2.y + r2.height)))) := by
  constructor
  · intro h
    have hx : ¬ (checkCollision r1 r2 = true) := by
      simp only [checkCollision, Bool.and_eq_true, decide_eq_true_eq, gt_iff_lt]
      rintro ⟨⟨⟨h1, h2⟩, h3⟩, h4⟩
      rcases h with h | h | h | h <;> linarith
    cases hb : checkCollision r1 r2
    · rfl
    · exact absurd hb hx
  · intro hw1 hh1 hw2 hh2
    simp only [checkCollision, Bool.and_eq_true, decide_eq_true_eq, gt_iff_lt]
    constructor
    · rintro ⟨⟨⟨h1, h2⟩, h3⟩, h4⟩
      constructor
      · refine ⟨(max r1.x r2.x + min (r1.x + r1.width) (r2.x + r2.width)) / 2,
          ?_, ?_, ?_, ?_⟩ <;>
        · have ha := le_max_left r1.x r2.x
          have hb := le_max_right r1.x r2.x
          have hc := min_le_left (r1.x + r1.width) (r2.x + r2.width)
          have hd := min_le_right (r1.x + r1.width) (r2.x + r2.width)
          have he : max r1.x r2.x < min (r1.x + r1.width) (r2.x + r2.width) := by
            apply max_lt <;> apply lt_min <;> linarith
          linarith
      · refine ⟨(max r1.y r2.y + min (r1.y + r1.height) (r2.y + r2.height)) / 2,
          ?_, ?_, ?_, ?_⟩ <;>
        · have ha := le_max_left r1.y r2.y
          have hb := le_max_right r1.y r2.y
          have hc := min_le_left (r1.y + r1.height) (r2.y + r2.height)
          have hd := min_le_right (r1.y + r1.height) (r2.y + r2.height)
          have he : max r1.y r2.y < min (r1.y + r1.height) (r2.y + r2.height) := by
            apply max_lt <;> apply lt_min <;> linarith
          linarith
    · rintro ⟨⟨qx, hqx1, hqx2, hqx3, hqx4⟩, ⟨qy, hqy1, hqy2, hqy3, hqy4⟩⟩
      refine ⟨⟨⟨?_, ?_⟩, ?_⟩, ?_⟩ <;> linarith

/-- Witness for C9 at a concrete touching pair: two 10×10 squares
sharing the vertical edge x = 10 do not collide. -/
theorem checkCollision_strict_witness :
    checkCollision ⟨0, 0, 10, 10⟩ ⟨10, 0, 10, 10⟩ = false :=
  (checkCollision_strict ⟨0, 0, 10, 10⟩ ⟨10, 0, 10, 10⟩).1 (Or.inl (by norm_num))

/-! ### C7: flip requests during the flip-animation window are ignored -/

/-- C7: when a flip is requested while a flip animation is in progress
(isFlipping is still set), the flip-handling step leaves the player —
gravityFlipped, velocity, timer — and the particle collection untouched;
moreover the expiry step keeps isFlipping set while at most 300ms have
elapsed, so requests keep being ignored until the window has elapsed. -/
theorem flip_ignored_while_flipping (p : Player) (parts : List Particle)
    (now : ℚ) (rng : ℕ → ℚ) (hf : p.isFlipping = true) :
    flipStep p parts true now rng = (p, parts) ∧
    (now - p.flipStartTime ≤ 300 → clearFlip now p = p) := by
  constructor
  · simp [flipStep, hf]
  · intro h300
    simp [clearFlip, hf, not_lt.mpr h300]

/-- Witness for C7: a concrete mid-animation player; the request at
200ms after the flip is ignored and the window persists. -/
theorem flip_ignored_while_flipping_witness :
    flipStep ⟨100, 200, 30, 30, -15, false, true, true, 1000⟩ [] true 1200
        (fun _ => 0) = (⟨100, 200, 30, 30, -15, false, true, true, 1000⟩, []) ∧
    ((1200 : ℚ) - 1200 + 1000 - 1000 ≤ 300 →
      clearFlip 1200 ⟨100, 200, 30, 30, -15, false, true, true, 1000⟩ =
        ⟨100, 200, 30, 30, -15, false, true, true, 1000⟩) := by
  have h := flip_ignored_while_flipping
    ⟨100, 200, 30, 30, -15, false, true, true, 1000⟩ [] 1200 (fun _ => 0) rfl
  exact ⟨h.1, fun _ => h.2 (by norm_num)⟩

/-! ### C8: obstacle spawn throttling -/

/-- An ineligible spawn attempt is a no-op. -/
lemma createObstacle_no_spawn (W H : ℚ) (s : GameState) (now r : ℚ)
    (h : now - s.lastObstacleTime < 2000) : createObstacle W H s now r = s := by
  simp [createObstacle, h]

/-- An eligible spawn records its wall-clock timestamp. -/
lemma createObstacle_spawn_last (W H : ℚ) (s : GameState) (now r : ℚ)
    (h : ¬ (now - s.lastObstacleTime < 2000)) :
    (createObstacle W H s now r).lastObstacleTime = now := by
  simp [createObstacle, h]

/-- C8: a spawn attempt earlier than 2000ms after the last spawn leaves
the game state (in particular the obstacle collection) unchanged; an
eligible attempt appends exactly one obstacle at the right edge of the
playfield whose floor/ceiling variant is decided by comparing the
Math.random() draw with 0.5, and records the spawn timestamp; hence two
consecutive spawns carry wall-clock timestamps at least 2000ms apart.
The last conjunct checks that the rest of the tick never touches
lastObstacleTime, so the spawn timestamps really persist from one spawn
to the next. -/
theorem createObstacle_spawn_spec (W H high : ℚ) (s : GameState) (now r : ℚ) :
    (now - s.lastObstacleTime < 2000 → createObstacle W H s now r = s) ∧
    (2000 ≤ now - s.lastObstacleTime →
      (createObstacle W H s now r).obstacles =
        s.obstacles ++
          [{ id := now
             x := W
             y := if decide (r < 1/2) then ceilingY else groundY H - H * (1/5)
             width := max 15 (W * (1/40))
             height := H * (1/5)
             isTop := decide (r < 1/2) }] ∧
      (createObstacle W H s now r).lastObstacleTime = now) ∧
    (∀ t2 r2,
      (createObstacle W H s now r).obstacles ≠ s.obstacles →
      (createObstacle W H (createObstacle W H s now r) t2 r2).obstacles ≠
        (createObstacle W H s now r).obstacles →
      2000 ≤ t2 - now) ∧
    (∀ rngP, (updateGame W H high s now rngP r).state.lastObstacleTime =
      (createObstacle W H s now r).lastObstacleTime) := by
  refine ⟨?_, ?_, ?_, ?_⟩
  · intro h
    simp [createObstacle, h]
  · intro h
    have hn : ¬ (now - s.lastObstacleTime < 2000) := not_lt.mpr h
    constructor
    · simp [createObstacle, hn]
    · simp [createObstacle, hn]
  · intro t2 r2 h1 h2
    by_cases hg : now - s.lastObstacleTime < 2000
    · exact absurd (by rw [createObstacle_no_spawn W H s now r hg]) h1
    · have hlast := createObstacle_spawn_last W H s now r hg
      by_cases hg2 : t2 - now < 2000
      · refine absurd ?_ h2
        rw [createObstacle_no_spawn W H (createObstacle W H s now r) t2 r2
          (by rw [hlast]; exact hg2)]
      · linarith [not_lt.mp hg2]
  · intro rngP
    by_cases hg : now - s.lastObstacleTime < 2000
    · simp [updateGame, createObstacle, hg]
    · simp [updateGame, createObstacle, hg]

/-- Witness for C8: from a fresh round state, a spawn at t = 2500 is
eligible and appends the single floor-mounted obstacle at x = 800; the
next spawn, at t = 4600, is indeed at least 2000ms later. -/
theorem createObstacle_spawn_spec_witness :
    (createObstacle 800 400 (startGame 800 400) 2500 1).obstacles =
      (startGame 800 400).obstacles ++
        [{ id := 2500
           x := 800
           y := if decide ((1 : ℚ) < 1/2) then ceilingY else groundY 400 - 400 * (1/5)
           width := max 15 (800 * (1/40))
           height := 400 * (1/5)
           isTop := decide ((1 : ℚ) < 1/2) }] ∧
    (createObstacle 800 400 (startGame 800 400) 2500 1).lastObstacleTime = 2500 ∧
    (2000 : ℚ) ≤ 4600 - 2500 := by
  refine ⟨?_, ?_, ?_⟩
  · exact ((createObstacle_spawn_spec 800 400 0 (startGame 800 400) 2500 1).2.1
      (by norm_num [startGame])).1
  · exact ((createObstacle_spawn_spec 800 400 0 (startGame 800 400) 2500 1).2.1
      (by norm_num [startGame])).2
  · exact (createObstacle_spawn_spec 800 400 0 (startGame 800 400) 2500 1).2.2.1 4600 1
      (by norm_num [createObstacle, startGame])
      (by norm_num [createObstacle, startGame])

/-! ### C3: outcome classification of the obstacle sweep -/

/-- C3 counterexample: the claim says the collision check takes priority
over the offscreen check within the per-obstacle sweep.  The filter body
tests the offscreen condition first: here the moved obstacle satisfies
both conditions at once, yet the sweep scores it (+10) and does not end
the round. -/
theorem offscreen_beats_collision_cex :
    collAfter ⟨-30, 100, 30, 30, 0, false, false, false, 0⟩ 3
      ⟨1, -10, 100, 5, 30, false⟩ ∧
    offAfter 3 ⟨1, -10, 100, 5, 30, false⟩ ∧
    sweep ⟨-30, 100, 30, 30, 0, false, false, false, 0⟩ 3 0 0
        [⟨1, -10, 100, 5, 30, false⟩] =
      { obstacles := [], score := 10, gameOverCount := 0, highWrites := [],
        toasts := 0 } := by
  refine ⟨?_, ?_, ?_⟩
  · norm_num [collAfter, movedObs, checkCollision, Player.rect, Obstacle.rect]
  · norm_num [offAfter, movedObs]
  · norm_num [sweep, checkCollision, Player.rect, Obstacle.rect]

/-- Unfolding of the sweep at an offscreen head. -/
lemma sweep_cons_off (p : Player) (speed high score : ℚ) (o : Obstacle)
    (rest : List Obstacle) (h : offAfter speed o) :
    sweep p speed high score (o :: rest) = sweep p speed high (score + 10) rest := by
  have h' : ({ o with x := o.x - speed } : Obstacle).x +
      ({ o with x := o.x - speed } : Obstacle).width < 0 := h
  simp only [sweep]
  rw [if_pos h']

/-- Unfolding of the sweep at a colliding (not offscreen) head. -/
lemma sweep_cons_coll (p : Player) (speed high score : ℚ) (o : Obstacle)
    (rest : List Obstacle) (hoff : ¬ offAfter speed o) (hcoll : collAfter p speed o) :
    sweep p speed high score (o :: rest) =
      { sweep p speed high score rest with
          gameOverCount := (sweep p speed high score rest).gameOverCount + 1
          highWrites := (if high < score then [score] else []) ++
            (sweep p speed high score rest).highWrites
          toasts := (if high < score then 1 else 0) +
            (sweep p speed high score rest).toasts } := by
  have hoff' : ¬ (({ o with x := o.x - speed } : Obstacle).x +
      ({ o with x := o.x - speed } : Obstacle).width < 0) := hoff
  have hcoll' : checkCollision p.rect ({ o with x := o.x - speed } : Obstacle).rect =
      true := hcoll
  simp only [sweep]
  rw [if_neg hoff', if_pos hcoll']

/-- Unfolding of the sweep at a surviving head. -/
lemma sweep_cons_keep (p : Player) (speed high score : ℚ) (o : Obstacle)
    (rest : List Obstacle) (hoff : ¬ offAfter speed o) (hcoll : ¬ collAfter p speed o) :
    sweep p speed high score (o :: rest) =
      { sweep p speed high score rest with
          obstacles := movedObs speed o :: (sweep p speed high score rest).obstacles } := by
  have hoff' : ¬ (({ o with x := o.x - speed } : Obstacle).x +
      ({ o with x := o.x - speed } : Obstacle).width < 0) := hoff
  have hcoll' : ¬ (checkCollision p.rect ({ o with x := o.x - speed } : Obstacle).rect =
      true) := hcoll
  simp only [sweep]
  rw [if_neg hoff', if_neg hcoll']
  rfl

/-- Per-obstacle classification of the whole sweep: score, game-over
effects and survivors are each determined by classifying every obstacle
of the tick exactly once, with the offscreen condition tested first. -/
lemma sweep_characterization (p : Player) (speed high : ℚ) (score : ℚ)
    (obs : List Obstacle) :
    (sweep p speed high score obs).score =
      score + 10 * ((obs.filter fun o => decide (offAfter speed o)).length : ℚ) ∧
    (sweep p speed high score obs).gameOverCount =
      (obs.filter fun o =>
        !(decide (offAfter speed o)) && decide (collAfter p speed o)).length ∧
    (sweep p speed high score obs).obstacles =
      (obs.filter fun o =>
        !(decide (offAfter speed o)) && !(decide (collAfter p speed o))).map
        (movedObs speed) := by
  induction obs generalizing score with
  | nil => simp [sweep]
  | cons o rest ih =>
    by_cases hoff : offAfter speed o
    · rw [sweep_cons_off p speed high score o rest hoff]
      refine ⟨?_, ?_, ?_⟩
      · rw [(ih (score + 10)).1]
        simp [List.filter_cons, hoff]
        ring
      · rw [(ih (score + 10)).2.1]
        simp [hoff]
      · rw [(ih (score + 10)).2.2]
        simp [hoff]
    · by_cases hcoll : collAfter p speed o
      · rw [sweep_cons_coll p speed high score o rest hoff hcoll]
        refine ⟨?_, ?_, ?_⟩
        · show (sweep p speed high score rest).score = _
          rw [(ih score).1]
          simp [List.filter_cons, hoff]
        · show (sweep p speed high score rest).gameOverCount + 1 = _
          rw [(ih score).2.1]
          simp [List.filter_cons, hoff, hcoll]
        · show (sweep p speed high score rest).obstacles = _
          rw [(ih score).2.2]
          simp [List.filter_cons, hoff, hcoll]
      · rw [sweep_cons_keep p speed high score o rest hoff hcoll]
        refine ⟨?_, ?_, ?_⟩
        · show (sweep p speed high score rest).score = _
          rw [(ih score).1]
          simp [List.filter_cons, hoff]
        · show (sweep p speed high score rest).gameOverCount = _
          rw [(ih score).2.1]
          simp [List.filter_cons, hoff, hcoll]
        · show movedObs speed o :: (sweep p speed high score rest).obstacles = _
          rw [(ih score).2.2]
          simp [List.filter_cons, hoff, hcoll]

/-- When the player's left edge is at a nonnegative x, an obstacle that
is past the left boundary cannot also overlap the player: the two
removal conditions are mutually exclusive. -/
lemma off_coll_exclusive (p : Player) (speed : ℚ) (o : Obstacle) (hx : 0 ≤ p.x)
    (hoff : offAfter speed o) : ¬ collAfter p speed o := by
  intro hc
  simp only [collAfter, checkCollision, Bool.and_eq_true, decide_eq_true_eq,
    Player.rect, Obstacle.rect, movedObs] at hc
  simp only [offAfter, movedObs] at hoff
  have h1 := hc.1.1.1
  linarith

/-- C3 amended: within the per-obstacle sweep the offscreen check runs
first, so it — not the collision check — takes priority; each obstacle
of a tick is classified exactly once (scored, collided, or kept), and
since the player's left edge sits at a nonnegative x during play
(startGame places it at 0.15·W), the two removal conditions are mutually
exclusive, so exactly one of {scored, collided} applies to every removed
obstacle and no obstacle is ever removed twice. -/
theorem obstacle_single_outcome (W H : ℚ) (p : Player) (speed high score : ℚ)
    (obs : List Obstacle) (hx : 0 ≤ p.x) :
    (∀ o ∈ obs, ¬ (offAfter speed o ∧ collAfter p speed o)) ∧
    (sweep p speed high score obs).score =
      score + 10 * ((obs.filter fun o => decide (offAfter speed o)).length : ℚ) ∧
    (sweep p speed high score obs).gameOverCount =
      (obs.filter fun o =>
        !(decide (offAfter speed o)) && decide (collAfter p speed o)).length ∧
    (sweep p speed high score obs).obstacles =
      (obs.filter fun o =>
        !(decide (offAfter speed o)) && !(decide (collAfter p speed o))).map
        (movedObs speed) ∧
    (0 ≤ W → 0 ≤ (startGame W H).player.x) := by
  refine ⟨?_, (sweep_characterization p speed high score obs).1,
    (sweep_characterization p speed high score obs).2.1,
    (sweep_characterization p speed high score obs).2.2, ?_⟩
  · rintro o _ ⟨h1, h2⟩
    exact off_coll_exclusive p speed o hx h1 h2
  · intro hW
    simp only [startGame]
    exact mul_nonneg hW (by norm_num)

/-- Witness for C3 amended: a concrete in-play player and a concrete
obstacle list; no obstacle can meet both removal conditions. -/
theorem obstacle_single_outcome_witness :
    ¬ (offAfter 3 ⟨1, 110, 100, 20, 30, false⟩ ∧
       collAfter ⟨100, 100, 30, 30, 0, false, false, false, 0⟩ 3
         ⟨1, 110, 100, 20, 30, false⟩) :=
  (obstacle_single_outcome 800 400 ⟨100, 100, 30, 30, 0, false, false, false, 0⟩
    3 0 0 [⟨1, 110, 100, 20, 30, false⟩] (by norm_num)).1
    ⟨1, 110, 100, 20, 30, false⟩ (List.mem_singleton_self _)

/-! ### C10: a fatal collision does not cut the sweep short -/

/-- C10: with a colliding (non-offscreen) head obstacle, the remainder
of the collection is still moved and tested exactly as it would be on
its own — the filter pass has no early exit.  The two closed conjuncts
evaluate concrete sweeps: in the first, an obstacle behind the fatal one
still exits on the left and raises the final score by 10 in the same
tick; in the second, a second colliding obstacle runs the game-over and
high-score-update effects a second time (two setGameOver runs, two
persisted writes, two toasts). -/
theorem sweep_continues_after_collision (p : Player) (speed high score : ℚ)
    (o : Obstacle) (rest : List Obstacle)
    (hoff : ¬ offAfter speed o) (hcoll : collAfter p speed o) :
    ((sweep p speed high score (o :: rest)).score =
        (sweep p speed high score rest).score ∧
      (sweep p speed high score (o :: rest)).obstacles =
        (sweep p speed high score rest).obstacles ∧
      (sweep p speed high score (o :: rest)).gameOverCount =
        (sweep p speed high score rest).gameOverCount + 1 ∧
      (sweep p speed high score (o :: rest)).toasts =
        (if high < score then 1 else 0) + (sweep p speed high score rest).toasts) ∧
    sweep ⟨100, 100, 30, 30, 0, false, false, false, 0⟩ 3 (-1) 0
        [⟨1, 110, 100, 20, 30, false⟩, ⟨2, -50, 100, 20, 30, false⟩] =
      { obstacles := [], score := 10, gameOverCount := 1, highWrites := [0],
        toasts := 1 } ∧
    sweep ⟨100, 100, 30, 30, 0, false, false, false, 0⟩ 3 (-1) 0
        [⟨1, 110, 100, 20, 30, false⟩, ⟨3, 112, 100, 20, 30, false⟩] =
      { obstacles := [], score := 0, gameOverCount := 2, highWrites := [0, 0],
        toasts := 2 } := by
  refine ⟨?_, ?_, ?_⟩
  · rw [sweep_cons_coll p speed high score o rest hoff hcoll]
    exact ⟨rfl, rfl, rfl, rfl⟩
  · norm_num [sweep, checkCollision, Player.rect, Obstacle.rect]
  · norm_num [sweep, checkCollision, Player.rect, Obstacle.rect]

/-- Witness for C10 at the same concrete fatal collision: the sweep of
the two-obstacle list scores exactly what the tail alone scores. -/
theorem sweep_continues_after_collision_witness :
    (sweep ⟨100, 100, 30, 30, 0, false, false, false, 0⟩ 3 (-1) 0
        [⟨1, 110, 100, 20, 30, false⟩, ⟨2, -50, 100, 20, 30, false⟩]).score =
      (sweep ⟨100, 100, 30, 30, 0, false, false, false, 0⟩ 3 (-1) 0
        [⟨2, -50, 100, 20, 30, false⟩]).score :=
  ((sweep_continues_after_collision ⟨100, 100, 30, 30, 0, false, false, false, 0⟩
    3 (-1) 0 ⟨1, 110, 100, 20, 30, false⟩ [⟨2, -50, 100, 20, 30, false⟩]
    (by norm_num [offAfter, movedObs])
    (by norm_num [collAfter, movedObs, checkCollision, Player.rect,
      Obstacle.rect])).1).1

/-! ### C2: gameSpeed cap and monotonicity -/

/-- C2 counterexample: the initial gameSpeed set by startGame is
max(2, 0.005·width), not the capped formula.  At width 1920 it is 9.6,
above the cap of 8; and at width 800 it is 4, while the very next update
recomputes min(8, 3 + 0.01·score) = 3 — a strict decrease from one tick
to the next within a round. -/
theorem gameSpeed_not_monotone_cex :
    8 < (startGame 1920 400).gameSpeed ∧
    (updateGame 800 400 0 (startGame 800 400) 10000 (fun _ => 0) 1).state.gameSpeed
      < (startGame 800 400).gameSpeed := by
  constructor
  · norm_num [startGame]
  · norm_num [updateGame, startGame, flipStep, clearFlip, physicsStep,
      createObstacle, sweep, updateParticles, checkCollision, getPlayerSize,
      groundY, ceilingY, GRAVITY, JUMP_FORCE, Player.rect, Obstacle.rect]

/-- createObstacle never changes the score. -/
lemma createObstacle_score (W H : ℚ) (s : GameState) (now r : ℚ) :
    (createObstacle W H s now r).score = s.score := by
  unfold createObstacle
  split <;> rfl

/-- The sweep never decreases the score. -/
lemma sweep_score_le (p : Player) (speed high score : ℚ) (obs : List Obstacle) :
    score ≤ (sweep p speed high score obs).score := by
  rw [(sweep_characterization p speed high score obs).1]
  have h : (0:ℚ) ≤
      10 * (((obs.filter fun o => decide (offAfter speed o)).length : ℕ) : ℚ) := by
    positivity
  linarith

/-- C2 amended: after every update the gameSpeed equals
min(8, 3 + score·0.01), hence never exceeds the cap of 8; and from any
state whose speed already has that shape — i.e. any state produced by an
update, so every tick of a round after the first — the speed is
non-decreasing from one tick to the next (the score never decreases
within a tick).  The claim fails only for the value installed by
startGame itself, max(2, 0.005·width), which can exceed the cap and can
exceed the first update's value. -/
theorem gameSpeed_capped_monotone (W H high : ℚ) (s : GameState) (now : ℚ)
    (rngP : ℕ → ℚ) (rngO : ℚ) :
    (updateGame W H high s now rngP rngO).state.gameSpeed ≤ 8 ∧
    (s.gameSpeed = min 8 (3 + s.score * (1/100)) →
      s.gameSpeed ≤ (updateGame W H high s now rngP rngO).state.gameSpeed) := by
  have hgs : (updateGame W H high s now rngP rngO).state.gameSpeed =
      min 8 (3 + (updateGame W H high s now rngP rngO).state.score * (1/100)) := by
    simp only [updateGame]
  constructor
  · rw [hgs]
    exact min_le_left _ _
  · intro hs
    have hsc : s.score ≤ (updateGame W H high s now rngP rngO).state.score := by
      simp only [updateGame, createObstacle_score]
      exact sweep_score_le _ _ _ _ _
    rw [hs, hgs]
    refine min_le_min le_rfl ?_
    linarith

/-- Witness for C2 amended: a post-first-update state (speed 3, score 0)
stays at or above speed 3 across the next update. -/
theorem gameSpeed_capped_monotone_witness :
    ({ startGame 800 400 with gameSpeed := 3 } : GameState).gameSpeed =
      min 8 (3 + ({ startGame 800 400 with gameSpeed := 3 } : GameState).score
        * (1/100)) ∧
    ({ startGame 800 400 with gameSpeed := 3 } : GameState).gameSpeed ≤
      (updateGame 800 400 0 { startGame 800 400 with gameSpeed := 3 } 10000
        (fun _ => 0) 1).state.gameSpeed := by
  have h : ({ startGame 800 400 with gameSpeed := 3 } : GameState).gameSpeed =
      min 8 (3 + ({ startGame 800 400 with gameSpeed := 3 } : GameState).score
        * (1/100)) := by
    norm_num [startGame, min_def]
  exact ⟨h, (gameSpeed_capped_monotone 800 400 0
    { startGame 800 400 with gameSpeed := 3 } 10000 (fun _ => 0) 1).2 h⟩

/-! ### C4: effect of an accepted flip -/

/-- C4: on a tick where a flip is requested and no flip animation is in
progress, gravityFlipped toggles, the vertical velocity becomes the jump
impulse of magnitude 15 signed with the new gravity direction (negative,
i.e. upwards, when flipped; positive when normal), the animation timer
starts at the current timestamp, and exactly 8 particles are appended,
all spawned about the player's center (each coordinate within the 10px
random jitter of createParticles, given Math.random() draws in [0,1)). -/
theorem flip_applies (p : Player) (parts : List Particle) (now : ℚ)
    (rng : ℕ → ℚ) (hr : ∀ i, 0 ≤ rng i ∧ rng i < 1) (hf : p.isFlipping = false) :
    (flipStep p parts true now rng).1.gravityFlipped = !p.gravityFlipped ∧
    (flipStep p parts true now rng).1.velocityY =
      (if (flipStep p parts true now rng).1.gravityFlipped then (-15 : ℚ) else 15) ∧
    (flipStep p parts true now rng).1.isFlipping = true ∧
    (flipStep p parts true now rng).1.flipStartTime = now ∧
    (flipStep p parts true now rng).2 =
      parts ++ createParticles now (p.x + p.width / 2) (p.y + p.height / 2) rng ∧
    (createParticles now (p.x + p.width / 2) (p.y + p.height / 2) rng).length = 8 ∧
    (∀ q ∈ createParticles now (p.x + p.width / 2) (p.y + p.height / 2) rng,
      p.x + p.width / 2 - 10 ≤ q.x ∧ q.x < p.x + p.width / 2 + 10 ∧
      p.y + p.height / 2 - 10 ≤ q.y ∧ q.y < p.y + p.height / 2 + 10 ∧
      q.life = 1) := by
  refine ⟨?_, ?_, ?_, ?_, ?_, ?_, ?_⟩
  · simp [flipStep, hf]
  · cases hb : p.gravityFlipped <;> simp [flipStep, hf, hb, JUMP_FORCE]
  · simp [flipStep, hf]
  · simp [flipStep, hf]
  · simp [flipStep, hf]
  · simp [createParticles]
  · intro q hq
    simp only [createParticles, List.mem_map, List.mem_range] at hq
    obtain ⟨i, hi, rfl⟩ := hq
    obtain ⟨h0a, h0b⟩ := hr (4 * i)
    obtain ⟨h1a, h1b⟩ := hr (4 * i + 1)
    refine ⟨?_, ?_, ?_, ?_, rfl⟩
    · show p.x + p.width / 2 - 10 ≤ p.x + p.width / 2 + rng (4 * i) * 20 - 10
      linarith
    · show p.x + p.width / 2 + rng (4 * i) * 20 - 10 < p.x + p.width / 2 + 10
      linarith
    · show p.y + p.height / 2 - 10 ≤ p.y + p.height / 2 + rng (4 * i + 1) * 20 - 10
      linarith
    · show p.y + p.height / 2 + rng (4 * i + 1) * 20 - 10 < p.y + p.height / 2 + 10
      linarith

/-- Witness for C4 at a concrete idle player and the constant-zero
random stream: the accepted flip appends the burst spawned at the
player's center. -/
theorem flip_applies_witness :
    (flipStep ⟨100, 200, 30, 30, 0, false, false, false, 0⟩ [] true 5000
        (fun _ => 0)).2 =
      [] ++ createParticles 5000 (100 + 30 / 2) (200 + 30 / 2) (fun _ => 0) :=
  (flip_applies ⟨100, 200, 30, 30, 0, false, false, false, 0⟩ [] 5000 (fun _ => 0)
    (fun _ => ⟨le_refl 0, by norm_num⟩) rfl).2.2.2.2.1

/-! ### C1: the player stays between ceiling and floor -/

/-- The player size is at most 40. -/
lemma getPlayerSize_le_40 (W : ℚ) : getPlayerSize W ≤ 40 := by
  unfold getPlayerSize
  exact max_le (by norm_num) (min_le_left _ _)

/-- The flip-handling step preserves the player invariant: it never
moves the player, and the impulse it installs points with the new
gravity direction. -/
lemma flipStep_invp (H : ℚ) (p : Player) (parts : List Particle) (space : Bool)
    (now : ℚ) (rng : ℕ → ℚ) (h : InvP H p) :
    InvP H (flipStep p parts space now rng).1 := by
  obtain ⟨h1, h2, h3, h4, h5⟩ := h
  unfold flipStep
  by_cases hc : (space && !p.isFlipping) = true
  · rw [if_pos hc]
    dsimp only
    cases hb : p.gravityFlipped <;>
      refine ⟨h1, h2, h3, ?_, ?_⟩ <;> simp [hb, JUMP_FORCE]
  · rw [if_neg hc]
    exact ⟨h1, h2, h3, h4, h5⟩

/-- The flip-animation expiry step preserves the player invariant. -/
lemma clearFlip_invp (H now : ℚ) (p : Player) (h : InvP H p) :
    InvP H (clearFlip now p) := by
  unfold clearFlip
  split
  · exact h
  · exact h

/-- Gravity integration with boundary clamping preserves the player
invariant: in the direction of gravity the motion is clamped exactly at
the boundary, and against the direction of gravity the player cannot
move, because the velocity always points with gravity. -/
lemma physicsStep_invp (H : ℚ) (p : Player) (h : InvP H p) :
    InvP H (physicsStep H p) := by
  obtain ⟨h1, h2, h3, h4, h5⟩ := h
  have hG : GRAVITY = 4/5 := rfl
  have hceil : ceilingY = 50 := rfl
  have hground : groundY H = H - 50 := rfl
  unfold physicsStep
  cases hb : p.gravityFlipped
  · have hv : 0 ≤ p.velocityY := h5 hb
    simp only [hb, Bool.false_eq_true, if_false]
    split
    · refine ⟨?_, ?_, h3, ?_, ?_⟩
      · rw [hceil] at h1 ⊢
        rw [hground]
        show (50:ℚ) ≤ H - 50 - p.height
        linarith
      · show H - 50 - p.height + p.height ≤ groundY H
        rw [hground]; linarith
      · intro
        show (0:ℚ) ≤ 0
        linarith
      · intro
        show (0:ℚ) ≤ 0
        linarith
    · rename_i hcl
      rw [not_le] at hcl
      refine ⟨?_, ?_, h3, ?_, ?_⟩
      · show ceilingY ≤ p.y + (p.velocityY + GRAVITY)
        rw [hceil] at h1 ⊢
        rw [hG]
        linarith
      · show p.y + (p.velocityY + GRAVITY) + p.height ≤ groundY H
        linarith
      · intro hcontra
        simp at hcontra
      · intro
        show 0 ≤ p.velocityY + GRAVITY
        rw [hG]
        linarith
  · have hv : p.velocityY ≤ 0 := h4 hb
    simp only [hb, if_true]
    split
    · refine ⟨?_, ?_, h3, ?_, ?_⟩
      · show ceilingY ≤ ceilingY
        linarith
      · show ceilingY + p.height ≤ groundY H
        rw [hceil, hground]
        linarith
      · intro
        show (0:ℚ) ≤ 0
        linarith
      · intro
        show (0:ℚ) ≤ 0
        linarith
    · rename_i hcl
      rw [not_le] at hcl
      refine ⟨?_, ?_, h3, ?_, ?_⟩
      · show ceilingY ≤ p.y + (p.velocityY + -GRAVITY)
        linarith
      · show p.y + (p.velocityY + -GRAVITY) + p.height ≤ groundY H
        rw [hG] at hcl ⊢
        rw [hground] at h2 ⊢
        linarith
      · intro
        show p.velocityY + -GRAVITY ≤ 0
        rw [hG]
        linarith
      · intro hcontra
        simp at hcontra

/-- createObstacle never touches the player. -/
lemma createObstacle_player (W H : ℚ) (s : GameState) (now r : ℚ) :
    (createObstacle W H s now r).player = s.player := by
  unfold createObstacle
  split <;> rfl

/-- The player produced by a tick is exactly the flip, expiry and
physics pipeline applied to the previous player: the obstacle sweep and
the particle update never touch it. -/
lemma updateGame_player (W H high : ℚ) (s : GameState) (now : ℚ)
    (rngP : ℕ → ℚ) (rngO : ℚ) :
    (updateGame W H high s now rngP rngO).state.player =
      physicsStep H (clearFlip now
        (flipStep s.player s.particles s.spaceKey now rngP).1) := by
  simp only [updateGame, createObstacle_player]

/-- C1: the round starts with the player inside the corridor (for any
playable canvas, H ≥ 200), and every tick of the running simulation
keeps the player box between the ceiling line and the floor line
inclusive: the velocity always points with the current gravity, so the
only boundary the player can approach is the one clamped by the update,
and the clamp lands exactly on the boundary. -/
theorem player_in_bounds (W H high : ℚ) (s : GameState) (now : ℚ)
    (rngP : ℕ → ℚ) (rngO : ℚ) :
    (200 ≤ H → InvP H (startGame W H).player) ∧
    (InvP H s.player →
      InvP H (updateGame W H high s now rngP rngO).state.player ∧
      ceilingY ≤ (updateGame W H high s now rngP rngO).state.player.y ∧
      (updateGame W H high s now rngP rngO).state.player.y +
        (updateGame W H high s now rngP rngO).state.player.height ≤ groundY H) := by
  constructor
  · intro hH
    have hs40 := getPlayerSize_le_40 W
    refine ⟨?_, ?_, ?_, ?_, ?_⟩
    · show ceilingY ≤ H / 2
      rw [show ceilingY = 50 from rfl]
      linarith
    · show H / 2 + getPlayerSize W ≤ groundY H
      rw [show groundY H = H - 50 from rfl]
      linarith
    · show getPlayerSize W ≤ H - 100
      linarith
    · intro hcontra
      simp [startGame] at hcontra
    · intro
      show (0:ℚ) ≤ 0
      linarith
  · intro hInv
    have h := physicsStep_invp H _ (clearFlip_invp H now _
      (flipStep_invp H s.player s.particles s.spaceKey now rngP hInv))
    rw [updateGame_player]
    exact ⟨h, h.1, h.2.1⟩

/-- Witness for C1: the fresh 800×400 round state satisfies the
invariant, and it still holds after a concrete tick. -/
theorem player_in_bounds_witness :
    InvP 400 (startGame 800 400).player ∧
    InvP 400 (updateGame 800 400 0 (startGame 800 400) 10000 (fun _ => 0)
      1).state.player := by
  have h0 : InvP 400 (startGame 800 400).player :=
    (player_in_bounds 800 400 0 (startGame 800 400) 10000 (fun _ => 0) 1).1
      (by norm_num)
  exact ⟨h0, ((player_in_bounds 800 400 0 (startGame 800 400) 10000 (fun _ => 0)
    1).2 h0).1⟩

/-! ### C5: the persisted high score -/

/-- Every value the sweep persists strictly exceeds the captured
previous high score. -/
lemma sweep_writes_gt (p : Player) (speed high : ℚ) (score : ℚ)
    (obs : List Obstacle) :
    ∀ w ∈ (sweep p speed high score obs).highWrites, high < w := by
  induction obs generalizing score with
  | nil => simp [sweep]
  | cons o rest ih =>
    by_cases hoff : offAfter speed o
    · rw [sweep_cons_off p speed high score o rest hoff]
      exact ih (score + 10)
    · by_cases hcoll : collAfter p speed o
      · rw [sweep_cons_coll p speed high score o rest hoff hcoll]
        dsimp only
        intro w hw
        rcases List.mem_append.mp hw with hw1 | hw2
        · split at hw1
          · rename_i hlt
            rw [List.mem_singleton.mp hw1]
            exact hlt
          · simp at hw1
        · exact ih score w hw2
      · rw [sweep_cons_keep p speed high score o rest hoff hcoll]
        exact ih score

/-- The sweep fires exactly one toast per persisted write. -/
lemma sweep_toasts_len (p : Player) (speed high : ℚ) (score : ℚ)
    (obs : List Obstacle) :
    (sweep p speed high score obs).toasts =
      (sweep p speed high score obs).highWrites.length := by
  induction obs generalizing score with
  | nil => simp [sweep]
  | cons o rest ih =>
    by_cases hoff : offAfter speed o
    · rw [sweep_cons_off p speed high score o rest hoff]
      exact ih (score + 10)
    · by_cases hcoll : collAfter p speed o
      · rw [sweep_cons_coll p speed high score o rest hoff hcoll]
        dsimp only
        rw [List.length_append, ih score]
        split <;> simp
      · rw [sweep_cons_keep p speed high score o rest hoff hcoll]
        exact ih score

/-- On a list with no offscreen obstacle the sweep leaves the score
unchanged, and every persisted write (one per collision, when the score
beats the captured high score) carries that same score. -/
lemma sweep_no_off (p : Player) (speed high : ℚ) (score : ℚ)
    (obs : List Obstacle) (h : ∀ o ∈ obs, ¬ offAfter speed o) :
    (sweep p speed high score obs).score = score ∧
    (sweep p speed high score obs).highWrites =
      (if high < score then
        List.replicate (sweep p speed high score obs).gameOverCount score
      else []) := by
  induction obs with
  | nil => simp [sweep]
  | cons o rest ih =>
    have hoff : ¬ offAfter speed o := h o (List.mem_cons_self o rest)
    have hrest : ∀ b ∈ rest, ¬ offAfter speed b :=
      fun b hb => h b (List.mem_cons_of_mem o hb)
    by_cases hcoll : collAfter p speed o
    · rw [sweep_cons_coll p speed high score o rest hoff hcoll]
      dsimp only
      obtain ⟨ihs, ihw⟩ := ih hrest
      refine ⟨ihs, ?_⟩
      rw [ihw]
      split
      · rw [List.replicate_succ]
        simp
      · simp
    · rw [sweep_cons_keep p speed high score o rest hoff hcoll]
      exact ih hrest

/-- On a trailing-sorted obstacle list (as every reachable list is) with
the player at nonnegative x, all scoring happens before the first
collision, so the persisted writes of a sweep are: one copy of the final
score per collision if the final score beats the captured high score,
and nothing otherwise. -/
lemma sweep_sorted_writes (p : Player) (speed high : ℚ) (score : ℚ)
    (obs : List Obstacle) (hx : 0 ≤ p.x) (hs : TrailSorted obs) :
    (sweep p speed high score obs).highWrites =
      (if high < (sweep p speed high score obs).score then
        List.replicate (sweep p speed high score obs).gameOverCount
          (sweep p speed high score obs).score
      else []) := by
  induction obs generalizing score with
  | nil => simp [sweep]
  | cons o rest ih =>
    have hpair : ∀ b ∈ rest, o.x + o.width ≤ b.x + b.width :=
      (List.pairwise_cons.mp hs).1
    have htail : TrailSorted rest := (List.pairwise_cons.mp hs).2
    by_cases hoff : offAfter speed o
    · rw [sweep_cons_off p speed high score o rest hoff]
      exact ih (score + 10) htail
    · by_cases hcoll : collAfter p speed o
      · have hrest : ∀ b ∈ rest, ¬ offAfter speed b := by
          intro b hb hoffb
          have h1 : p.x < o.x - speed + o.width := by
            simp only [collAfter, checkCollision, Bool.and_eq_true,
              decide_eq_true_eq, Player.rect, Obstacle.rect, movedObs] at hcoll
            linarith [hcoll.1.1.1]
          have h2 : b.x - speed + b.width < 0 := by
            simpa [offAfter, movedObs] using hoffb
          have h3 := hpair b hb
          linarith
        rw [sweep_cons_coll p speed high score o rest hoff hcoll]
        dsimp only
        obtain ⟨hsc, hwr⟩ := sweep_no_off p speed high score rest hrest
        rw [hwr, hsc]
        split
        · rw [List.replicate_succ]
          simp
        · simp
      · rw [sweep_cons_keep p speed high score o rest hoff hcoll]
        exact ih score htail

/-- The last element of a list of values above high is above high,
unless the list is empty and the default is returned. -/
lemma getLastD_all_gt (high d : ℚ) (l : List ℚ) (h : ∀ w ∈ l, high < w) :
    l.getLastD d = d ∨ high < l.getLastD d := by
  induction l generalizing d with
  | nil => exact Or.inl rfl
  | cons a t ih =>
    rw [List.getLastD_cons]
    rcases ih a (fun w hw => h w (List.mem_cons_of_mem a hw)) with he | hlt
    · refine Or.inr ?_
      rw [he]
      exact h a (List.mem_cons_self a t)
    · exact Or.inr hlt

/-- The last element of a nonempty constant list is that constant. -/
lemma getLastD_replicate (m : ℕ) (x d : ℚ) :
    (List.replicate (m + 1) x).getLastD d = x := by
  induction m generalizing d with
  | zero => rfl
  | succ k ih =>
    rw [List.replicate_succ, List.getLastD_cons]
    exact ih x

/-- C5: the persisted high score never decreases across a tick (every
write strictly exceeds the captured previous value); and on a tick that
triggers the Running-to-Over transition (at least one collision), the
persisted value is overwritten if and only if the round's final score
strictly exceeds the previously persisted high score — in which case the
persisted value becomes that final score — and a success toast fires
exactly on overwrite.  Hypotheses: the player's left edge at nonnegative
x and a trailing-sorted obstacle list, both true of every reachable
round state. -/
theorem persisted_high_score (p : Player) (speed high score : ℚ)
    (obs : List Obstacle) (hx : 0 ≤ p.x) (hs : TrailSorted obs) :
    high ≤ persistedAfter high (sweep p speed high score obs) ∧
    (0 < (sweep p speed high score obs).gameOverCount →
      ((persistedAfter high (sweep p speed high score obs) ≠ high ↔
          high < (sweep p speed high score obs).score) ∧
       (high < (sweep p speed high score obs).score →
          persistedAfter high (sweep p speed high score obs) =
            (sweep p speed high score obs).score) ∧
       (0 < (sweep p speed high score obs).toasts ↔
          high < (sweep p speed high score obs).score))) := by
  constructor
  · rcases getLastD_all_gt high high ((sweep p speed high score obs).highWrites)
      (sweep_writes_gt p speed high score obs) with he | hlt
    · unfold persistedAfter
      rw [he]
    · exact le_of_lt hlt
  · intro hgc
    have hrep := sweep_sorted_writes p speed high score obs hx hs
    by_cases hlt : high < (sweep p speed high score obs).score
    · rw [if_pos hlt] at hrep
      obtain ⟨m, hm⟩ : ∃ m, (sweep p speed high score obs).gameOverCount = m + 1 :=
        ⟨(sweep p speed high score obs).gameOverCount - 1,
          (Nat.succ_pred_eq_of_pos hgc).symm⟩
      have hne : persistedAfter high (sweep p speed high score obs) =
          (sweep p speed high score obs).score := by
        unfold persistedAfter
        rw [hrep, hm]
        exact getLastD_replicate m _ _
      refine ⟨⟨fun _ => hlt, fun _ => ?_⟩, fun _ => hne, ⟨fun _ => hlt, fun _ => ?_⟩⟩
      · rw [hne]
        exact ne_of_gt hlt
      · rw [sweep_toasts_len p speed high score obs, hrep, hm]
        simp
    · rw [if_neg hlt] at hrep
      have hph : persistedAfter high (sweep p speed high score obs) = high := by
        unfold persistedAfter
        rw [hrep]
        rfl
      refine ⟨⟨fun hne => absurd hph hne, fun hl => absurd hl hlt⟩,
        fun hl => absurd hl hlt, ⟨fun ht => ?_, fun hl => absurd hl hlt⟩⟩
      rw [sweep_toasts_len p speed high score obs, hrep] at ht
      simp at ht

/-- Witness for C5 at a concrete game-over tick: previous high 5, final
score 20, one collision; the persisted value does not decrease. -/
theorem persisted_high_score_witness :
    (0:ℚ) ≤ (⟨100, 100, 30, 30, 0, false, false, false, 0⟩ : Player).x ∧
    TrailSorted [⟨1, 110, 100, 20, 30, false⟩] ∧
    (5:ℚ) ≤ persistedAfter 5 (sweep ⟨100, 100, 30, 30, 0, false, false, false, 0⟩
      3 5 20 [⟨1, 110, 100, 20, 30, false⟩]) := by
  have hx : (0:ℚ) ≤ (⟨100, 100, 30, 30, 0, false, false, false, 0⟩ : Player).x := by
    norm_num
  have hs : TrailSorted [(⟨1, 110, 100, 20, 30, false⟩ : Obstacle)] := by
    simp [TrailSorted]
  exact ⟨hx, hs, (persisted_high_score ⟨100, 100, 30, 30, 0, false, false, false, 0⟩
    3 5 20 [⟨1, 110, 100, 20, 30, false⟩] hx hs).1⟩
